import Mathlib

/-!
Shallow embedding of the asynchronous quality-evaluation pipeline of the
RAG legal-contract-analysis application, together with theorems checking the
natural-language specification against the code.

Embedded modules (translated from the TypeScript source):
* frontend/src/lib/evalService.ts — sampling gate, bounded queue scheduler,
  judge adapter (score parsing, clamping), runEvaluation.
* frontend/src/lib/evalStore.ts — config and evaluation-log persistence with
  in-memory caches.
* frontend/src/app/api/evaluations/route.ts — the PATCH handler's
  configuration-update validation schema.

JavaScript numbers are modelled as `JsNum` (a rational or NaN); JavaScript
runtime values reachable from a parsed JSON document are modelled as `JsVal`,
and `JSON.parse` is modelled by an executable recursive-descent JSON parser
so that the judge-output parsing path can be evaluated on concrete inputs.
State (module-level mutable variables, files on disk) is modelled by explicit
state passing.
-/

set_option maxRecDepth 100000

namespace ContractEval

/-! ## JavaScript number model -/

/-- A JavaScript number as used on the judge-score path: either NaN or a
rational value. (Signed zero and infinities play no role in the embedded
code paths and are not distinguished.) -/
inductive JsNum where
  | nan : JsNum
  | val : ℚ → JsNum
deriving DecidableEq, Repr

/-- JS `Math.round` on a (non-NaN) number: round half toward positive
infinity, i.e. the floor of `q + 1/2`, computed in integer arithmetic as
`⌊(2·num + den) / (2·den)⌋` (floor division; the denominator is positive). -/
def jsRoundQ (q : ℚ) : ℤ := Int.fdiv (2 * q.num + (q.den : ℤ)) (2 * (q.den : ℤ))

/-- JS `Math.round`, propagating NaN. -/
def jsRound : JsNum → JsNum
  | .nan => .nan
  | .val q => .val (mkRat (jsRoundQ q) 1)

/-- JS `Math.max(a, x)` with a numeric literal first argument: the larger of
the two, NaN if `x` is NaN. -/
def jsMaxC (a : ℚ) : JsNum → JsNum
  | .nan => .nan
  | .val q => .val (if a ≤ q then q else a)

/-- JS `Math.min(a, x)` with a numeric literal first argument: the smaller
of the two, NaN if `x` is NaN. -/
def jsMinC (a : ℚ) : JsNum → JsNum
  | .nan => .nan
  | .val q => .val (if q ≤ a then q else a)

/-- JS `+` on numbers, propagating NaN. -/
def jsAdd : JsNum → JsNum → JsNum
  | .val a, .val b => .val (a + b)
  | _, _ => .nan

/-- JS division by a nonzero numeric literal, propagating NaN. -/
def jsDivC (x : JsNum) (b : ℚ) : JsNum :=
  match x with
  | .nan => .nan
  | .val a => .val (a / b)

/-! ## JavaScript runtime values reachable from JSON -/

/-- A JavaScript value as can appear while reading fields off the object
returned by `JSON.parse` (plus `undefined` for an absent property). -/
inductive JsVal where
  | jsUndefined : JsVal
  | null : JsVal
  | bool : Bool → JsVal
  | num : ℚ → JsVal
  | str : String → JsVal
  | arr : List JsVal → JsVal
  | obj : List (String × JsVal) → JsVal
deriving Repr

/-- JS truthiness test (used by the `x || y` fallback on `reasoning`).
Arrays and objects are always truthy. -/
def jsTruthy : JsVal → Bool
  | .jsUndefined => false
  | .null => false
  | .bool b => b
  | .num q => decide (q ≠ 0)
  | .str s => decide (s ≠ "")
  | .arr _ => true
  | .obj _ => true

/-- JS `x || y`: `x` when truthy, else `y`. -/
def jsOr (x y : JsVal) : JsVal := if jsTruthy x then x else y

/-- String-to-number helper for `ToNumber` on strings: trimmed decimal
numerals (optional sign, digits, optional fraction); anything else is NaN.
(Hex/exponent string forms never arise on the embedded paths.) -/
def strToNum (s : String) : JsNum :=
  let t := s.trim
  if t = "" then .val 0
  else
    let core := fun (u : List Char) =>
      if u = [] then JsNum.nan
      else if u.all (·.isDigit) then
        JsNum.val ((u.foldl (fun acc c => acc * 10 + (c.toNat - 48)) 0 : ℕ) : ℚ)
      else
        match u.splitOn '.' with
        | [ip, fp] =>
          if ip.all (·.isDigit) ∧ fp.all (·.isDigit) ∧ (ip ≠ [] ∨ fp ≠ []) then
            let ipn : ℕ := ip.foldl (fun acc c => acc * 10 + (c.toNat - 48)) 0
            let fpn : ℕ := fp.foldl (fun acc c => acc * 10 + (c.toNat - 48)) 0
            JsNum.val ((ipn : ℚ) + (fpn : ℚ) / ((10 : ℚ) ^ fp.length))
          else JsNum.nan
        | _ => JsNum.nan
    match t.toList with
    | '-' :: rest =>
      (match core rest with
       | .nan => .nan
       | .val q => .val (-q))
    | '+' :: rest => core rest
    | cs => core cs

/-- JS `ToNumber` coercion, as applied by `Math.round` to its argument.
`undefined ↦ NaN`, `null ↦ 0`, booleans to 0/1, strings via numeric parse.
Object-to-primitive coercion for arrays/objects is not exercised by any
embedded claim and is mapped to NaN. -/
def toNumber : JsVal → JsNum
  | .jsUndefined => .nan
  | .null => .val 0
  | .bool b => .val (if b then 1 else 0)
  | .num q => .val q
  | .str s => strToNum s
  | .arr _ => .nan
  | .obj _ => .nan

/-- Property read `o.k` for an object value: the bound value, or `undefined`
when the key is absent (JSON.parse keeps the last duplicate key, hence the
reversed search). Property reads on non-objects on the embedded path can
only be reached through a successfully parsed brace block, which is always
an object; they are mapped to `undefined`. -/
def objGet (v : JsVal) (k : String) : JsVal :=
  match v with
  | .obj fields =>
    match fields.reverse.find? (fun p => p.fst = k) with
    | some p => p.snd
    | none => .jsUndefined
  | _ => .jsUndefined

/-! ## JSON.parse model

An executable recursive-descent parser for JSON text, modelling the
`JSON.parse(jsonMatch[0])` call in `judgeResponse` (evalService.ts line 183).
Recursion is fuelled; `jsonParse` supplies ample fuel for its input.
Unicode surrogate-pair recombination is not modelled (no embedded claim
involves astral characters). -/

/-- JSON insignificant whitespace. -/
def isJsonWs (c : Char) : Bool := c = ' ' ∨ c = '\t' ∨ c = '\n' ∨ c = '\r'

/-- Drop leading JSON whitespace. -/
def skipWs : List Char → List Char
  | [] => []
  | c :: rest => if isJsonWs c then skipWs rest else c :: rest

/-- Hex digit value. -/
def hexVal (c : Char) : Option ℕ :=
  if c.isDigit then some (c.toNat - 48)
  else if 'a' ≤ c ∧ c ≤ 'f' then some (c.toNat - 87)
  else if 'A' ≤ c ∧ c ≤ 'F' then some (c.toNat - 55)
  else none

/-- Body of a JSON string literal (the opening quote already consumed). -/
def parseStringBody : ℕ → List Char → List Char → Except String (String × List Char)
  | 0, _, _ => .error "string fuel exhausted"
  | _ + 1, [], _ => .error "Unterminated string in JSON"
  | fuel + 1, c :: rest, acc =>
    if c = '"' then .ok (String.mk acc.reverse, rest)
    else if c = '\\' then
      match rest with
      | [] => .error "Unterminated string in JSON"
      | e :: rest2 =>
        if e = '"' then parseStringBody fuel rest2 ('"' :: acc)
        else if e = '\\' then parseStringBody fuel rest2 ('\\' :: acc)
        else if e = '/' then parseStringBody fuel rest2 ('/' :: acc)
        else if e = 'b' then parseStringBody fuel rest2 ('\x08' :: acc)
        else if e = 'f' then parseStringBody fuel rest2 ('\x0c' :: acc)
        else if e = 'n' then parseStringBody fuel rest2 ('\n' :: acc)
        else if e = 'r' then parseStringBody fuel rest2 ('\r' :: acc)
        else if e = 't' then parseStringBody fuel rest2 ('\t' :: acc)
        else if e = 'u' then
          match rest2 with
          | h1 :: h2 :: h3 :: h4 :: rest3 =>
            match hexVal h1, hexVal h2, hexVal h3, hexVal h4 with
            | some a, some b, some c2, some d =>
              parseStringBody fuel rest3
                (Char.ofNat (((a * 16 + b) * 16 + c2) * 16 + d) :: acc)
            | _, _, _, _ => .error "Bad Unicode escape in JSON"
          | _ => .error "Bad Unicode escape in JSON"
        else .error "Bad escape in JSON"
    else if c.toNat < 32 then .error "Bad control character in JSON string"
    else parseStringBody fuel rest (c :: acc)

/-- Split a leading run of decimal digits. -/
def spanDigits : List Char → List Char × List Char
  | [] => ([], [])
  | c :: rest =>
    if c.isDigit then
      let p := spanDigits rest
      (c :: p.1, p.2)
    else ([], c :: rest)

/-- Numeric value of a digit run. -/
def digitsVal (ds : List Char) : ℕ :=
  ds.foldl (fun acc c => acc * 10 + (c.toNat - 48)) 0

/-- A JSON number token (JSON grammar: optional minus, integer part with no
leading zeros, optional fraction, optional exponent). -/
def parseNumberTok (cs : List Char) : Except String (ℚ × List Char) :=
  let sp : Bool × List Char :=
    match cs with
    | c :: rest => if c = '-' then (true, rest) else (false, cs)
    | [] => (false, cs)
  let neg := sp.1
  let cs1 := sp.2
  match cs1 with
  | [] => .error "Unexpected end of JSON input"
  | c :: _ =>
    if ¬ c.isDigit then .error "Unexpected token in JSON"
    else
      let ipp : List Char × List Char :=
        if c = '0' then ([c], cs1.tail) else spanDigits cs1
      let ip := ipp.1
      let cs2 := ipp.2
      let fr : Except String (List Char × List Char) :=
        match cs2 with
        | d :: rest2 =>
          if d = '.' then
            let p := spanDigits rest2
            if p.1 = [] then .error "Missing digits after decimal point in JSON"
            else .ok (p.1, p.2)
          else .ok ([], cs2)
        | [] => .ok ([], cs2)
      match fr with
      | .error e => .error e
      | .ok (fp, cs3) =>
        let exr : Except String (ℤ × List Char) :=
          match cs3 with
          | e :: rest3 =>
            if e = 'e' ∨ e = 'E' then
              let sp2 : ℤ × List Char :=
                match rest3 with
                | s :: r =>
                  if s = '-' then (-1, r) else if s = '+' then (1, r) else (1, rest3)
                | [] => (1, rest3)
              let p := spanDigits sp2.2
              if p.1 = [] then .error "Missing exponent digits in JSON"
              else .ok (sp2.1 * (digitsVal p.1 : ℤ), p.2)
            else .ok (0, cs3)
          | [] => .ok (0, cs3)
        match exr with
        | .error e => .error e
        | .ok (ev, cs4) =>
          let base : ℚ := (digitsVal ip : ℚ) + (digitsVal fp : ℚ) / ((10 : ℚ) ^ fp.length)
          let q0 : ℚ := base * (10 : ℚ) ^ ev
          .ok (if neg then -q0 else q0, cs4)

mutual

/-- A JSON value. -/
def parseVal : ℕ → List Char → Except String (JsVal × List Char)
  | 0, _ => .error "json fuel exhausted"
  | fuel + 1, cs =>
    match skipWs cs with
    | [] => .error "Unexpected end of JSON input"
    | c :: rest =>
      if c = '\x7b' then
        match skipWs rest with
        | d :: rest2 =>
          if d = '\x7d' then .ok (.obj [], rest2)
          else parseObjMember fuel rest []
        | [] => .error "Unexpected end of JSON input"
      else if c = '[' then
        match skipWs rest with
        | d :: rest2 =>
          if d = ']' then .ok (.arr [], rest2)
          else parseArrElem fuel rest []
        | [] => .error "Unexpected end of JSON input"
      else if c = '"' then
        match parseStringBody (rest.length + 1) rest [] with
        | .error e => .error e
        | .ok (s, rest2) => .ok (.str s, rest2)
      else if c = 't' then
        match rest with
        | 'r' :: 'u' :: 'e' :: rest2 => .ok (.bool true, rest2)
        | _ => .error "Unexpected token in JSON"
      else if c = 'f' then
        match rest with
        | 'a' :: 'l' :: 's' :: 'e' :: rest2 => .ok (.bool false, rest2)
        | _ => .error "Unexpected token in JSON"
      else if c = 'n' then
        match rest with
        | 'u' :: 'l' :: 'l' :: rest2 => .ok (.null, rest2)
        | _ => .error "Unexpected token in JSON"
      else if c = '-' ∨ c.isDigit then
        match parseNumberTok (c :: rest) with
        | .error e => .error e
        | .ok (q, rest2) => .ok (.num q, rest2)
      else .error "Unexpected token in JSON"

/-- One object member (`"key" : value`), then the object tail. -/
def parseObjMember (fuel : ℕ) (cs : List Char) (acc : List (String × JsVal)) :
    Except String (JsVal × List Char) :=
  match fuel with
  | 0 => .error "json fuel exhausted"
  | fuel + 1 =>
    match skipWs cs with
    | [] => .error "Unexpected end of JSON input"
    | c :: rest =>
      if c = '"' then
        match parseStringBody (rest.length + 1) rest [] with
        | .error e => .error e
        | .ok (key, rest2) =>
          match skipWs rest2 with
          | d :: rest3 =>
            if d = ':' then
              match parseVal fuel rest3 with
              | .error e => .error e
              | .ok (v, rest4) => parseObjTail fuel rest4 ((key, v) :: acc)
            else .error "Expected colon in JSON object"
          | [] => .error "Unexpected end of JSON input"
      else .error "Expected property name in JSON object"

/-- After an object member: `}` closes, `,` continues. -/
def parseObjTail (fuel : ℕ) (cs : List Char) (acc : List (String × JsVal)) :
    Except String (JsVal × List Char) :=
  match fuel with
  | 0 => .error "json fuel exhausted"
  | fuel + 1 =>
    match skipWs cs with
    | [] => .error "Unexpected end of JSON input"
    | c :: rest =>
      if c = '\x7d' then .ok (.obj acc.reverse, rest)
      else if c = ',' then parseObjMember fuel rest acc
      else .error "Expected comma or closing brace in JSON object"

/-- One array element, then the array tail. -/
def parseArrElem (fuel : ℕ) (cs : List Char) (acc : List JsVal) :
    Except String (JsVal × List Char) :=
  match fuel with
  | 0 => .error "json fuel exhausted"
  | fuel + 1 =>
    match parseVal fuel cs with
    | .error e => .error e
    | .ok (v, rest) => parseArrTail fuel rest (v :: acc)

/-- After an array element: `]` closes, `,` continues. -/
def parseArrTail (fuel : ℕ) (cs : List Char) (acc : List JsVal) :
    Except String (JsVal × List Char) :=
  match fuel with
  | 0 => .error "json fuel exhausted"
  | fuel + 1 =>
    match skipWs cs with
    | [] => .error "Unexpected end of JSON input"
    | c :: rest =>
      if c = ']' then .ok (.arr acc.reverse, rest)
      else if c = ',' then parseArrElem fuel rest acc
      else .error "Expected comma or closing bracket in JSON array"

end

/-- `JSON.parse` on a whole document: one value, nothing but whitespace
after it. -/
def jsonParse (s : String) : Except String JsVal :=
  let cs := s.toList
  match parseVal (2 * cs.length + 2) cs with
  | .error e => .error e
  | .ok (v, rest) =>
    if (skipWs rest).isEmpty then .ok v
    else .error "Unexpected non-whitespace character after JSON"

/-- `text.match(/\x7b[\s\S]*\x7d/)` from evalService.ts line 177: the match
exists iff some opening brace has a closing brace strictly after it; the
matched block runs from the first such opening brace to the last closing
brace of the text (the quantifier is greedy). -/
def extractJsonBlock (s : String) : Option String :=
  let cs := s.toList
  let n := cs.length
  match (List.range n).find? (fun i =>
      (cs.get? i == some '\x7b') &&
      (List.range n).any (fun j => decide (i < j) && (cs.get? j == some '\x7d'))) with
  | none => none
  | some i =>
    match ((List.range n).filter (fun j =>
        decide (i < j) && (cs.get? j == some '\x7d'))).getLast? with
    | none => none
    | some j => some (String.mk ((cs.drop i).take (j + 1 - i)))

/-! ## Judge Adapter (evalService.ts, judgeResponse) -/

/-- The object `judgeResponse` returns (source interface `JudgeScores`):
four validated scores and the reasoning value. The runtime value of
`reasoning` is whatever `scores.reasoning || 'No reasoning provided'`
produced, hence `JsVal`. -/
structure JudgeScores where
  faithfulness : JsNum
  relevance : JsNum
  completeness : JsNum
  citationAccuracy : JsNum
  reasoning : JsVal
deriving Repr

/-- evalService.ts line 186:
`const validateScore = (s) => Math.min(5, Math.max(1, Math.round(s)));`
applied to a raw property value (which may be absent or non-numeric, hence
the `ToNumber` coercion performed by `Math.round`). -/
def validateScore (s : JsVal) : JsNum := jsMinC 5 (jsMaxC 1 (jsRound (toNumber s)))

/-- evalService.ts lines 201-209. -/
def getDefaultScores (reason : String) : JudgeScores :=
  { faithfulness := .val 3, relevance := .val 3, completeness := .val 3,
    citationAccuracy := .val 3, reasoning := .str reason }

/-- The reply-text-processing tail of `judgeResponse` (evalService.ts lines
176-194): regex-extract a brace block (none ⇒ neutral defaults), `JSON.parse`
it (a parse exception escapes the function — the enclosing `try` rethrows),
then validate each score field and default the reasoning. -/
def parseJudgeText (text : String) : Except String JudgeScores :=
  match extractJsonBlock text with
  | none => .ok (getDefaultScores "Invalid JSON response")
  | some block =>
    match jsonParse block with
    | .error e => .error e
    | .ok scores =>
      .ok { faithfulness := validateScore (objGet scores "faithfulness"),
            relevance := validateScore (objGet scores "relevance"),
            completeness := validateScore (objGet scores "completeness"),
            citationAccuracy := validateScore (objGet scores "citationAccuracy"),
            reasoning := jsOr (objGet scores "reasoning") (.str "No reasoning provided") }

/-- `judgeResponse` (evalService.ts lines 153-199), with the outcome of the
external `generateText` call made explicit: a failed call rethrows (driving
the Scheduler's retry), a successful call yields the reply text which is
processed by `parseJudgeText`. -/
def judgeResponse (callResult : Except String String) : Except String JudgeScores :=
  match callResult with
  | .error e => .error e
  | .ok text => parseJudgeText text

/-- Whether an `Except` is an error. -/
def isErr {ε α : Type} : Except ε α → Bool
  | .error _ => true
  | .ok _ => false

/-! ## Data model (evalTypes.ts) -/

/-- `EvaluationConfig` (evalTypes.ts lines 33-38). Fields hold JavaScript
numbers; on every path embedded here they are non-NaN, so `sampleRate` and
`flagThreshold` are rationals and `maxStored` an integer. -/
structure EvaluationConfig where
  enabled : Bool
  sampleRate : ℚ
  flagThreshold : ℚ
  maxStored : ℤ
deriving DecidableEq, Repr

/-- `DEFAULT_EVAL_CONFIG` (evalTypes.ts lines 63-68). -/
def DEFAULT_EVAL_CONFIG : EvaluationConfig :=
  { enabled := true, sampleRate := 1/10, flagThreshold := 3, maxStored := 1000 }

/-- A `Partial<EvaluationConfig>`: each field optionally present. -/
structure ConfigPatch where
  enabled : Option Bool := none
  sampleRate : Option ℚ := none
  flagThreshold : Option ℚ := none
  maxStored : Option ℤ := none
deriving DecidableEq, Repr

/-- The JS object spread `{ ...current, ...patch }`: fields present in the
patch win, absent fields keep the current value. -/
def mergeConfig (current : EvaluationConfig) (p : ConfigPatch) : EvaluationConfig :=
  { enabled := p.enabled.getD current.enabled,
    sampleRate := p.sampleRate.getD current.sampleRate,
    flagThreshold := p.flagThreshold.getD current.flagThreshold,
    maxStored := p.maxStored.getD current.maxStored }

/-- The JSON serialization of a full config: every field present. -/
def fullPatch (c : EvaluationConfig) : ConfigPatch :=
  { enabled := some c.enabled, sampleRate := some c.sampleRate,
    flagThreshold := some c.flagThreshold, maxStored := some c.maxStored }

/-- `EvaluationScores` (evalTypes.ts lines 8-13); components are the values
produced by `validateScore`, hence `JsNum`. -/
structure EvaluationScores where
  faithfulness : JsNum
  relevance : JsNum
  completeness : JsNum
  citationAccuracy : JsNum
deriving DecidableEq, Repr

/-- `EvaluationResult` (evalTypes.ts lines 15-31). -/
structure EvaluationResult where
  id : String
  timestamp : String
  query : String
  response : String
  context : String
  scores : EvaluationScores
  reasoning : JsVal
  averageScore : JsNum
  isFlagged : Bool

/-! ## Persistent Store (evalStore.ts)

Module state (the in-memory caches) and durable state (the two JSON files)
are bundled into one explicit `StoreState`. An absent/corrupt file is
modelled as `none` (the corresponding read throws and is caught). -/

structure StoreState where
  diskConfig : Option ConfigPatch := none
  configCache : Option EvaluationConfig := none
  diskEvals : Option (List EvaluationResult) := none
  evaluationsCache : Option (List EvaluationResult) := none

/-- `getConfig` (evalStore.ts lines 73-84): serve the cache when warm;
otherwise read the config file, merge the parsed fields over the defaults
and warm the cache; on a read failure return the defaults (without caching). -/
def getConfig (st : StoreState) : EvaluationConfig × StoreState :=
  match st.configCache with
  | some c => (c, st)
  | none =>
    match st.diskConfig with
    | some p =>
      let parsed := mergeConfig DEFAULT_EVAL_CONFIG p
      (parsed, { st with configCache := some parsed })
    | none => (DEFAULT_EVAL_CONFIG, st)

/-- `saveConfig` (evalStore.ts lines 89-97): merge the patch into the current
config, write the full record durably, then update the cache. -/
def saveConfig (p : ConfigPatch) (st : StoreState) : StoreState :=
  let cur := getConfig st
  let updated := mergeConfig cur.1 p
  { cur.2 with diskConfig := some (fullPatch updated), configCache := some updated }

/-- `readEvaluationsFromDisk` (evalStore.ts lines 102-109): a failed or
falsy read yields the empty list. -/
def readEvaluationsFromDisk (st : StoreState) : List EvaluationResult :=
  st.diskEvals.getD []

/-- `getEvaluations` (evalStore.ts lines 114-120). List values in this
embedding are immutable, so the `[...cache]` spread is the identity on
contents; the reference-level copy semantics is analysed separately in the
`AliasModel` namespace. -/
def getEvaluations (st : StoreState) : List EvaluationResult × StoreState :=
  match st.evaluationsCache with
  | some c => (c, st)
  | none =>
    let evals := readEvaluationsFromDisk st
    (evals, { st with evaluationsCache := some evals })

/-- `Array.prototype.slice(0, k)` for a possibly negative JS end index `k`:
a negative end counts from the end of the array. -/
def jsSliceTo (k : ℤ) (l : List α) : List α :=
  if k < 0 then l.take (l.length - (-k).toNat) else l.take k.toNat

/-- `saveEvaluation` (evalStore.ts lines 126-148): read the config, re-read
the durable log fresh (bypassing the cache), prepend the new result, trim to
`maxStored` when over, write the log durably, then update the cache. -/
def saveEvaluation (evaluation : EvaluationResult) (st : StoreState) : StoreState :=
  let cur := getConfig st
  let config := cur.1
  let st1 := cur.2
  let currentEvaluations := readEvaluationsFromDisk st1
  let newEvaluations := evaluation :: currentEvaluations
  let trimmed :=
    if (newEvaluations.length : ℤ) > config.maxStored then
      jsSliceTo config.maxStored newEvaluations
    else newEvaluations
  { st1 with diskEvals := some trimmed, evaluationsCache := some trimmed }

/-! ## Sampling Gate (evalService.ts, shouldEvaluate) -/

/-- `shouldEvaluate` (evalService.ts lines 45-52), with the per-call uniform
draw `Math.random()` (a value in `[0,1)`) made an explicit argument `r`. -/
def shouldEvaluate (forceEval : Bool) (st : StoreState) (r : ℚ) : Bool × StoreState :=
  if forceEval then (true, st)
  else
    let cfg := getConfig st
    if !cfg.1.enabled then (false, cfg.2)
    else (decide (r < cfg.1.sampleRate), cfg.2)

/-! ## Evaluation Scheduler (evalService.ts) -/

def MAX_QUEUE_SIZE : ℕ := 100

def MAX_RETRIES : ℕ := 3

/-- `QueueItem` (evalService.ts lines 22-28). -/
structure QueueItem where
  query : String
  response : String
  context : String
  retryCount : ℕ
  lastError : Option String := none
deriving DecidableEq, Repr

/-- The Scheduler's module-level mutable state (evalService.ts lines 31-33),
plus `persisted`: the chronological record of queue items for which an
attempt succeeded — each such attempt runs `runEvaluation`, which creates
exactly one `EvaluationResult` and calls `saveEvaluation` on it exactly
once. -/
structure SchedState where
  evaluationQueue : List QueueItem := []
  isProcessing : Bool := false
  droppedCount : ℕ := 0
  persisted : List QueueItem := []
deriving DecidableEq, Repr

/-- `queueEvaluation` (evalService.ts lines 58-79): reject and count a drop
when the queue is at capacity, otherwise append with `retryCount = 0`.
(Starting the consumer loop when idle is the separate `processQueue`.) -/
def queueEvaluation (query response context : String) (st : SchedState) :
    Bool × SchedState :=
  if MAX_QUEUE_SIZE ≤ st.evaluationQueue.length then
    (false, { st with droppedCount := st.droppedCount + 1 })
  else
    (true, { st with evaluationQueue :=
        st.evaluationQueue ++ [{ query := query, response := response,
                                 context := context, retryCount := 0 }] })

/-- One iteration of the `processQueue` while-loop (evalService.ts lines
89-113). The `outcome` is the result of `await runEvaluation(item)` —
success, or failure with the thrown error's message (judge-call or
store-write failure). On success the item's evaluation has been persisted;
on failure, an item with `retryCount < MAX_RETRIES` is bumped, stamped with
`lastError`, and appended to the tail, and any other item is dropped. -/
def processStep (outcome : Except String Unit) (st : SchedState) : SchedState :=
  match st.evaluationQueue with
  | [] => st
  | item :: rest =>
    match outcome with
    | .ok _ => { st with evaluationQueue := rest, persisted := st.persisted ++ [item] }
    | .error e =>
      if item.retryCount < MAX_RETRIES then
        { st with evaluationQueue :=
            rest ++ [{ item with retryCount := item.retryCount + 1, lastError := some e }] }
      else
        { st with evaluationQueue := rest }

/-- The while-loop of `processQueue`: iterate while the queue is nonempty,
one oracle outcome per attempt. -/
def processLoop (outcomes : List (Except String Unit)) (st : SchedState) : SchedState :=
  match outcomes with
  | [] => st
  | o :: rest =>
    if st.evaluationQueue.isEmpty then st
    else processLoop rest (processStep o st)

/-- `processQueue` (evalService.ts lines 84-116): the re-entrancy guard, the
loop, and the final reset of the processing flag. -/
def processQueue (outcomes : List (Except String Unit)) (st : SchedState) : SchedState :=
  if st.isProcessing || st.evaluationQueue.isEmpty then st
  else
    let st1 := processLoop outcomes { st with isProcessing := true }
    { st1 with isProcessing := false }

/-! ## Interleaving-level Scheduler model (evalService.ts lines 58-116)

The coarse model above treats a whole processing iteration as one step,
which is exact for a single item's attempt/retry/persist history (the
properties of `processQueue_retry_spec`) but hides two timing facts of the
source that matter for queue-depth accounting:

* `queueEvaluation` calls `processQueue()` without awaiting it when the
  consumer is idle (lines 72-76). An async function body runs synchronously
  up to its first `await`, and `processQueue` passes its guard, sets
  `isProcessing`, and `shift()`s the head (lines 85-90) before suspending at
  `await runEvaluation(item)` (line 94) — so that shift happens before
  `queueEvaluation` returns.
* the head-shift and the catch-block tail-requeue of a failing item (line
  103, which has no capacity check) are separated by the awaited judge call,
  a suspension point at which producers may enqueue freely.

This model makes those suspension points explicit. A state holds the queue,
the flag, the drop counter, the item currently awaited by the consumer
(`inFlight` — already removed from the queue by `shift`), and the persisted
record. Three events cover every synchronous segment of the source: an
`enq` call (including the synchronous consumer-start prefix), the
resumption `finish` after `await runEvaluation` settles (persist on
success, requeue-or-drop on failure, then suspend for the pacing delay),
and the loop `resume` after the delay (shift the next head or exit).
`status().pending` reads `evaluationQueue.length`. -/

namespace AsyncModel

/-- Scheduler state between synchronous segments. -/
structure AState where
  evaluationQueue : List QueueItem := []
  isProcessing : Bool := false
  droppedCount : ℕ := 0
  inFlight : Option QueueItem := none
  persisted : List QueueItem := []
deriving DecidableEq, Repr

/-- The empty idle scheduler (module load state). -/
def aInit : AState := {}

/-- One `queueEvaluation` call (evalService.ts lines 58-79), including the
synchronous prefix of the `processQueue` it triggers when the consumer is
idle: push, pass the guard, set the flag, shift the head, and suspend at
the judge await. -/
def stepEnqueue (query response context : String) (st : AState) : Bool × AState :=
  if MAX_QUEUE_SIZE ≤ st.evaluationQueue.length then
    (false, { st with droppedCount := st.droppedCount + 1 })
  else if st.isProcessing then
    (true, { st with evaluationQueue := st.evaluationQueue ++
        [{ query := query, response := response, context := context, retryCount := 0 }] })
  else
    match st.evaluationQueue ++
        [{ query := query, response := response, context := context, retryCount := 0 }] with
    | [] => (true, st)
    | head :: rest =>
      (true, { st with evaluationQueue := rest, isProcessing := true,
                       inFlight := some head })

/-- The consumer's synchronous segment when `await runEvaluation(item)`
settles (evalService.ts lines 93-108): on success the item's evaluation has
been persisted; on failure the catch block requeues a bumped item at the
tail — with no capacity check — when `retryCount < MAX_RETRIES`, else drops
it. The consumer then suspends for the pacing delay. No-op when nothing is
in flight. -/
def stepFinish (outcome : Except String Unit) (st : AState) : AState :=
  match st.inFlight with
  | none => st
  | some item =>
    match outcome with
    | .ok _ =>
      { st with inFlight := none, persisted := st.persisted ++ [item] }
    | .error e =>
      if item.retryCount < MAX_RETRIES then
        { st with inFlight := none, evaluationQueue := st.evaluationQueue ++
            [{ item with retryCount := item.retryCount + 1, lastError := some e }] }
      else
        { st with inFlight := none }

/-- The consumer's synchronous segment when the pacing delay elapses
(evalService.ts lines 89-91, 112-115): shift the next head and suspend at
its judge await, or exit the loop and clear the flag when the queue is
empty. No-op unless the consumer is between iterations. -/
def stepResume (st : AState) : AState :=
  if st.isProcessing && st.inFlight.isNone then
    match st.evaluationQueue with
    | [] => { st with isProcessing := false }
    | head :: rest =>
      { st with evaluationQueue := rest, inFlight := some head }
  else st

/-- An interleaving event: a producer's enqueue call, or one of the two
consumer resumptions. -/
inductive AEvent where
  | enq (query response context : String)
  | finish (outcome : Except String Unit)
  | resume
deriving Repr

/-- Apply one event. -/
def stepA (ev : AEvent) (st : AState) : AState :=
  match ev with
  | .enq q r c => (stepEnqueue q r c st).2
  | .finish o => stepFinish o st
  | .resume => stepResume st

/-- Run a schedule of events. -/
def runA (events : List AEvent) (st : AState) : AState :=
  events.foldl (fun s e => stepA e s) st

/-- A back-to-back burst of `n` enqueue calls with no consumer progress in
between (reachable: after the first call the consumer is suspended at its
judge await), counting how many are accepted. -/
def enqueueBurst (n : ℕ) (st : AState) : ℕ × AState :=
  match n with
  | 0 => (0, st)
  | n + 1 =>
    let p := stepEnqueue "q" "r" "c" st
    let rest := enqueueBurst n p.2
    ((if p.1 then 1 else 0) + rest.1, rest.2)

/-- The queue-depth invariant the program actually maintains: at most
`MAX_QUEUE_SIZE` pending while an attempt is in flight, and at most
`MAX_QUEUE_SIZE + 1` otherwise (the uncapped requeue can overshoot the
enqueue cap by exactly one). -/
def schedInvB (st : AState) : Bool :=
  match st.inFlight with
  | none => decide (st.evaluationQueue.length ≤ MAX_QUEUE_SIZE + 1)
  | some _ => decide (st.evaluationQueue.length ≤ MAX_QUEUE_SIZE)

/-- A reachable schedule driving the pending length to 101: one enqueue
(whose item the consumer start immediately shifts and then awaits), 100
further enqueues that refill the queue to capacity during that await, and a
failing attempt whose requeue pushes past the cap. -/
def overfillRun : List AEvent :=
  AEvent.enq "q" "r" "c" ::
    (List.replicate 100 (AEvent.enq "q" "r" "c") ++
      [AEvent.finish (Except.error "boom")])

end AsyncModel

/-! ## runEvaluation (evalService.ts lines 214-265) -/

/-- JS `x < t` on a score and a threshold: false when the score is NaN. -/
def jsLtQ (x : JsNum) (t : ℚ) : Bool :=
  match x with
  | .nan => false
  | .val q => decide (q < t)

/-- `runEvaluation` (evalService.ts lines 214-265): the construction of the
`EvaluationResult` from the judged scores and the config read at the start of
the call, with the generated id and timestamp made explicit arguments. -/
def runEvaluation (id timestamp : String) (config : EvaluationConfig)
    (data : QueueItem) (scores : JudgeScores) : EvaluationResult :=
  let averageScore :=
    jsDivC (jsAdd (jsAdd (jsAdd scores.faithfulness scores.relevance)
      scores.completeness) scores.citationAccuracy) 4
  { id := id,
    timestamp := timestamp,
    query := data.query,
    response := data.response.take 2000,
    context := data.context.take 3000,
    scores := { faithfulness := scores.faithfulness, relevance := scores.relevance,
                completeness := scores.completeness,
                citationAccuracy := scores.citationAccuracy },
    reasoning := scores.reasoning,
    averageScore := averageScore,
    isFlagged :=
      jsLtQ scores.faithfulness config.flagThreshold ||
      jsLtQ scores.relevance config.flagThreshold ||
      jsLtQ scores.completeness config.flagThreshold ||
      jsLtQ scores.citationAccuracy config.flagThreshold }

/-! ## HTTP PATCH validation (app/api/evaluations/route.ts lines 33-38) -/

/-- The Zod `ConfigUpdateSchema` range checks: each field optional,
`sampleRate` in `[0,1]`, `flagThreshold` an integer in `[1,5]`, `maxStored`
an integer in `[1,10000]`. (`maxStored` is already integral in this
embedding; `flagThreshold` integrality is the denominator-1 check. The
`.strict()` unknown-key rejection is outside the `ConfigPatch` type.) -/
def ConfigUpdateSchema (p : ConfigPatch) : Bool :=
  (match p.sampleRate with
   | none => true
   | some q => decide (0 ≤ q ∧ q ≤ 1)) &&
  (match p.flagThreshold with
   | none => true
   | some q => decide (q.den = 1 ∧ 1 ≤ q ∧ q ≤ 5)) &&
  (match p.maxStored with
   | none => true
   | some m => decide (1 ≤ m ∧ m ≤ 10000))

/-- `QueueStatus` as returned by `getQueueStatus` (evalService.ts lines
270-277). -/
structure QueueStatus where
  pending : ℕ
  processing : Bool
  dropped : ℕ
  maxSize : ℕ
deriving DecidableEq, Repr

/-- `getQueueStatus` (evalService.ts lines 270-277). -/
def getQueueStatus (st : SchedState) : QueueStatus :=
  { pending := st.evaluationQueue.length, processing := st.isProcessing,
    dropped := st.droppedCount, maxSize := MAX_QUEUE_SIZE }

/-- The spec's "integer in [1,5]" predicate on a stored score component. -/
def scoreInRangeB (s : JsNum) : Bool :=
  match s with
  | .nan => false
  | .val q => decide (q.den = 1 ∧ 1 ≤ q ∧ q ≤ 5)

/-! ## Reference-level model of getEvaluations (for the defensive-copy claim)

The value-level `getEvaluations` above cannot express JavaScript object
identity, so this namespace re-embeds evalStore.ts lines 114-120 over an
explicit heap: objects and arrays live at numeric addresses, an array value
is a list of object addresses, and the module variable `evaluationsCache`
holds an array address. The spread `[...cache]` allocates a fresh array
containing the same element references. -/

namespace AliasModel

/-- The JS heap: object store and array store, addressed by index. -/
structure Heap where
  objs : List EvaluationResult
  arrs : List (List ℕ)

/-- Module + durable state: the cache holds an array reference. -/
structure MemState where
  heap : Heap
  evaluationsCache : Option ℕ
  diskEvals : List EvaluationResult

/-- Allocate a fresh array. -/
def allocArr (h : Heap) (elems : List ℕ) : ℕ × Heap :=
  (h.arrs.length, { h with arrs := h.arrs ++ [elems] })

/-- Allocate fresh objects (one per parsed record), returning their
addresses. -/
def allocObjs (h : Heap) (vals : List EvaluationResult) : List ℕ × Heap :=
  ((List.range vals.length).map (· + h.objs.length), { h with objs := h.objs ++ vals })

/-- The element references of the array at address `a`. -/
def arrElems (h : Heap) (a : ℕ) : List ℕ := (h.arrs.get? a).getD []

/-- The observable contents of the array at address `a`: each element
reference dereferenced in the object store. -/
def viewArr (h : Heap) (a : ℕ) : List (Option EvaluationResult) :=
  (arrElems h a).map (fun o => h.objs.get? o)

/-- `getEvaluations` (evalStore.ts lines 114-120) at reference level: on a
warm cache, return `[...evaluationsCache]` — a fresh array sharing the
cached element references; on a cold cache, parse the disk records into
fresh objects, store that array as the cache, and return a spread copy. -/
def getEvaluations (st : MemState) : ℕ × MemState :=
  match st.evaluationsCache with
  | some c =>
    let p := allocArr st.heap (arrElems st.heap c)
    (p.1, { st with heap := p.2 })
  | none =>
    let q := allocObjs st.heap st.diskEvals
    let cacheP := allocArr q.2 q.1
    let retP := allocArr cacheP.2 q.1
    (retP.1, { st with heap := retP.2, evaluationsCache := some cacheP.1 })

/-- A caller-side field write through the returned value:
`returned[i].«field» = ...`, i.e. mutate the object referenced by slot `i`
of array `a`. -/
def setElemField (st : MemState) (a i : ℕ)
    (f : EvaluationResult → EvaluationResult) : MemState :=
  match (arrElems st.heap a).get? i with
  | none => st
  | some o =>
    match st.heap.objs.get? o with
    | none => st
    | some r =>
      { st with heap := { st.heap with objs := st.heap.objs.set o (f r) } }

/-- A caller-side mutation of the returned sequence itself:
`returned[i] = x` overwrites slot `i` of array `a` with another reference. -/
def setArrSlot (st : MemState) (a i o : ℕ) : MemState :=
  { st with heap :=
      { st.heap with arrs := st.heap.arrs.set a ((arrElems st.heap a).set i o) } }

end AliasModel

/-! ## Concrete fixtures used by witnesses and counterexamples -/

def schedEmpty : SchedState := {}

def storeEmpty : StoreState := {}

def qitemA : QueueItem :=
  { query := "q", response := "r", context := "c", retryCount := 0 }

def qitemExhausted : QueueItem :=
  { query := "q", response := "r", context := "c", retryCount := 3,
    lastError := some "boom" }

def scoresLow : JudgeScores :=
  { faithfulness := .val 2, relevance := .val 5, completeness := .val 5,
    citationAccuracy := .val 5, reasoning := .str "weak faithfulness" }

def resA : EvaluationResult :=
  { id := "eval_1", timestamp := "2026-01-31T00:00:00Z", query := "q",
    response := "r", context := "c",
    scores := { faithfulness := .val 5, relevance := .val 5,
                completeness := .val 5, citationAccuracy := .val 5 },
    reasoning := .str "fine", averageScore := .val 5, isFlagged := false }

def aliasR0 : EvaluationResult :=
  { id := "eval_0", timestamp := "2026-01-31T00:00:00Z", query := "q",
    response := "r", context := "c",
    scores := { faithfulness := .val 4, relevance := .val 4,
                completeness := .val 4, citationAccuracy := .val 4 },
    reasoning := .str "ok", averageScore := .val 4, isFlagged := false }

def aliasSt0 : AliasModel.MemState :=
  { heap := { objs := [aliasR0], arrs := [[0]] },
    evaluationsCache := some 0, diskEvals := [aliasR0] }

def aFull : AsyncModel.AState :=
  { evaluationQueue := List.replicate 100 qitemA, isProcessing := true,
    inFlight := none }

def aBusy : AsyncModel.AState :=
  { evaluationQueue := [], isProcessing := true, inFlight := some qitemA }

def storeDisabled : StoreState :=
  { configCache := some { enabled := false, sampleRate := 1/10,
                          flagThreshold := 3, maxStored := 1000 } }

def storeRate0 : StoreState :=
  { configCache := some { enabled := true, sampleRate := 0,
                          flagThreshold := 3, maxStored := 1000 } }

def storeRate1 : StoreState :=
  { configCache := some { enabled := true, sampleRate := 1,
                          flagThreshold := 3, maxStored := 1000 } }

/-! # Claim theorems -/

/-- C7: `saveConfig` merges the partial update into the current
configuration so that fields absent from the partial keep their prior
values; in particular updating only `flagThreshold` to 4 yields a config
with `flagThreshold = 4` and `enabled`, `sampleRate`, `maxStored` unchanged
from their prior values. -/
theorem saveConfig_merge_spec (st : StoreState) (p : ConfigPatch) :
    (getConfig (saveConfig p st)).1 = mergeConfig (getConfig st).1 p ∧
    (getConfig (saveConfig { flagThreshold := some 4 } st)).1 =
      { (getConfig st).1 with flagThreshold := 4 } :=
  ⟨rfl, rfl⟩

/-- C10: the store-layer `saveConfig` applies no range validation of its
own: out-of-range updates such as `sampleRate = 7` or `flagThreshold = 0`
are merged, written durably, and returned by a subsequent `getConfig`; the
documented bounds are enforced only by the PATCH handler's
`ConfigUpdateSchema`, which rejects both updates. -/
theorem saveConfig_no_validation_spec (st : StoreState) :
    ((getConfig (saveConfig { sampleRate := some 7 } st)).1.sampleRate = 7) ∧
    ((saveConfig { sampleRate := some 7 } st).diskConfig =
      some (fullPatch { (getConfig st).1 with sampleRate := 7 })) ∧
    ((getConfig (saveConfig { flagThreshold := some 0 } st)).1.flagThreshold = 0) ∧
    ((saveConfig { flagThreshold := some 0 } st).diskConfig =
      some (fullPatch { (getConfig st).1 with flagThreshold := 0 })) ∧
    ConfigUpdateSchema { sampleRate := some 7 } = false ∧
    ConfigUpdateSchema { flagThreshold := some 0 } = false :=
  ⟨rfl, rfl, rfl, rfl, by decide, by decide⟩

/-- C8: `shouldEvaluate true` returns true without consulting the
configuration (the state is untouched); `shouldEvaluate false` returns false
whenever evaluation is disabled; when enabled, `sampleRate = 0` yields false
for every draw in `[0,1)` and `sampleRate = 1` yields true for every such
draw. -/
theorem shouldEvaluate_spec (st : StoreState) (r : ℚ) :
    shouldEvaluate true st r = (true, st) ∧
    ((getConfig st).1.enabled = false → (shouldEvaluate false st r).1 = false) ∧
    ((getConfig st).1.enabled = true → (getConfig st).1.sampleRate = 0 →
      0 ≤ r → (shouldEvaluate false st r).1 = false) ∧
    ((getConfig st).1.enabled = true → (getConfig st).1.sampleRate = 1 →
      r < 1 → (shouldEvaluate false st r).1 = true) := by
  refine ⟨rfl, ?_, ?_, ?_⟩
  · intro h
    simp [shouldEvaluate, h]
  · intro he hs hr
    simp [shouldEvaluate, he, hs, not_lt.mpr hr]
  · intro he hs hr
    simp [shouldEvaluate, he, hs, hr]

/-- C8 witness: the three guarded facts of `shouldEvaluate_spec` at concrete
stores and the concrete draw 1/2. -/
theorem shouldEvaluate_spec_witness :
    ((getConfig storeDisabled).1.enabled = false ∧
      (shouldEvaluate false storeDisabled (1/2)).1 = false) ∧
    ((getConfig storeRate0).1.enabled = true ∧
      (getConfig storeRate0).1.sampleRate = 0 ∧ (0 : ℚ) ≤ 1/2 ∧
      (shouldEvaluate false storeRate0 (1/2)).1 = false) ∧
    ((getConfig storeRate1).1.enabled = true ∧
      (getConfig storeRate1).1.sampleRate = 1 ∧ (1/2 : ℚ) < 1 ∧
      (shouldEvaluate false storeRate1 (1/2)).1 = true) :=
  ⟨⟨rfl, (shouldEvaluate_spec storeDisabled (1/2)).2.1 rfl⟩,
   ⟨rfl, rfl, by norm_num,
    (shouldEvaluate_spec storeRate0 (1/2)).2.2.1 rfl rfl (by norm_num)⟩,
   ⟨rfl, rfl, by norm_num,
    (shouldEvaluate_spec storeRate1 (1/2)).2.2.2 rfl rfl (by norm_num)⟩⟩

/-- C5: for a successfully judged item, the created `EvaluationResult` has
`isFlagged = true` iff at least one of the four (numeric) score components
is strictly below the `flagThreshold` of the configuration passed to
`runEvaluation` — the config read once at the start of the scoring call;
the stored flag is a plain field, never recomputed. -/
theorem runEvaluation_isFlagged_iff (id ts : String) (config : EvaluationConfig)
    (data : QueueItem) (scores : JudgeScores) (f r c ca : ℚ)
    (hf : scores.faithfulness = .val f) (hr : scores.relevance = .val r)
    (hc : scores.completeness = .val c) (hca : scores.citationAccuracy = .val ca) :
    (runEvaluation id ts config data scores).isFlagged = true ↔
      (f < config.flagThreshold ∨ r < config.flagThreshold ∨
       c < config.flagThreshold ∨ ca < config.flagThreshold) := by
  simp [runEvaluation, jsLtQ, hf, hr, hc, hca]
  tauto

/-- C5 witness: a score vector with faithfulness 2 under the default config
(threshold 3) is flagged. -/
theorem runEvaluation_isFlagged_iff_witness :
    (scoresLow.faithfulness = JsNum.val 2 ∧ scoresLow.relevance = JsNum.val 5 ∧
     scoresLow.completeness = JsNum.val 5 ∧
     scoresLow.citationAccuracy = JsNum.val 5) ∧
    ((runEvaluation "eval_1" "t" DEFAULT_EVAL_CONFIG qitemA scoresLow).isFlagged = true ↔
      ((2 : ℚ) < DEFAULT_EVAL_CONFIG.flagThreshold ∨
       (5 : ℚ) < DEFAULT_EVAL_CONFIG.flagThreshold ∨
       (5 : ℚ) < DEFAULT_EVAL_CONFIG.flagThreshold ∨
       (5 : ℚ) < DEFAULT_EVAL_CONFIG.flagThreshold)) :=
  ⟨⟨rfl, rfl, rfl, rfl⟩,
   runEvaluation_isFlagged_iff "eval_1" "t" DEFAULT_EVAL_CONFIG qitemA scoresLow
     2 5 5 5 rfl rfl rfl rfl⟩

/-- C2 counterexample: in the interleaving-faithful model, a burst of 150
enqueue calls into the empty idle scheduler accepts 101 and drops 49 — not
the claimed 100 and 50 — because the first call's consumer start
synchronously shifts that item out of the queue before returning; and the
pending length does exceed 100 in a reachable state: after one enqueue whose
item the consumer is awaiting, 100 refilling enqueues, and a failed attempt,
the uncapped requeue drives `pending` to 101. -/
theorem queueEvaluation_burst_counterexample :
    ((AsyncModel.enqueueBurst 150 AsyncModel.aInit).1 = 101 ∧
     ¬ (AsyncModel.enqueueBurst 150 AsyncModel.aInit).1 = 100) ∧
    ((AsyncModel.enqueueBurst 150 AsyncModel.aInit).2.droppedCount = 49 ∧
     ¬ (AsyncModel.enqueueBurst 150 AsyncModel.aInit).2.droppedCount = 50) ∧
    (AsyncModel.enqueueBurst 150 AsyncModel.aInit).2.evaluationQueue.length = 100 ∧
    ((AsyncModel.runA AsyncModel.overfillRun AsyncModel.aInit).evaluationQueue.length = 101 ∧
     ¬ (AsyncModel.runA AsyncModel.overfillRun
          AsyncModel.aInit).evaluationQueue.length ≤ MAX_QUEUE_SIZE) := by
  refine ⟨⟨by decide, by decide⟩, ⟨by decide, by decide⟩, by decide, ⟨by decide, by decide⟩⟩

/-- C2 amended: `queueEvaluation` returns false and increments the drop
counter exactly when the queue already holds `MAX_QUEUE_SIZE = 100` items,
and otherwise appends the item with `retryCount = 0` and returns true —
when the consumer is idle, the triggered `processQueue` synchronously
shifts the queue head before the call returns. Hence enqueuing 150 items
into the empty idle queue accepts exactly the first 101, leaves the drop
counter at 49 and the pending length at 100. An enqueue never raises the
pending length above 100, but the retry requeue is uncapped and adds one
item unconditionally, so the pending length can reach — and never exceeds —
101: the invariant "at most 100 pending while an attempt is in flight, at
most 101 otherwise" holds initially and is preserved by every enqueue and
every consumer resumption. -/
theorem queueEvaluation_bound_amended (st : AsyncModel.AState)
    (q r c : String) (item : QueueItem) (e : String) :
    (MAX_QUEUE_SIZE ≤ st.evaluationQueue.length →
      AsyncModel.stepEnqueue q r c st =
        (false, { st with droppedCount := st.droppedCount + 1 })) ∧
    (st.evaluationQueue.length < MAX_QUEUE_SIZE → st.isProcessing = true →
      AsyncModel.stepEnqueue q r c st =
        (true, { st with evaluationQueue := st.evaluationQueue ++
            [{ query := q, response := r, context := c, retryCount := 0 }] })) ∧
    (st.evaluationQueue.length < MAX_QUEUE_SIZE → st.isProcessing = false →
      ∃ head rest, st.evaluationQueue ++
          [{ query := q, response := r, context := c, retryCount := 0 }] =
            head :: rest ∧
        AsyncModel.stepEnqueue q r c st =
          (true, { st with evaluationQueue := rest, isProcessing := true,
                           inFlight := some head })) ∧
    (st.evaluationQueue.length ≤ MAX_QUEUE_SIZE →
      (AsyncModel.stepEnqueue q r c st).2.evaluationQueue.length ≤ MAX_QUEUE_SIZE) ∧
    (st.inFlight = some item → item.retryCount < MAX_RETRIES →
      (AsyncModel.stepFinish (.error e) st).evaluationQueue.length =
        st.evaluationQueue.length + 1) ∧
    (AsyncModel.schedInvB st = true →
      ∀ ev : AsyncModel.AEvent, AsyncModel.schedInvB (AsyncModel.stepA ev st) = true) ∧
    AsyncModel.schedInvB AsyncModel.aInit = true ∧
    ((AsyncModel.enqueueBurst 150 AsyncModel.aInit).1 = 101 ∧
     (AsyncModel.enqueueBurst 150 AsyncModel.aInit).2.droppedCount = 49 ∧
     (AsyncModel.enqueueBurst 150 AsyncModel.aInit).2.evaluationQueue.length = 100) := by
  refine ⟨?_, ?_, ?_, ?_, ?_, ?_, by decide, by decide, by decide, by decide⟩
  · intro h
    simp [AsyncModel.stepEnqueue, h]
  · intro h hp
    simp [AsyncModel.stepEnqueue, Nat.not_le.mpr h, hp]
  · intro h hp
    rcases hq : st.evaluationQueue ++
        [{ query := q, response := r, context := c, retryCount := 0 }] with _ | ⟨head, rest⟩
    · simp at hq
    · exact ⟨head, rest, hq, by simp [AsyncModel.stepEnqueue, Nat.not_le.mpr h, hp, hq]⟩
  · intro h
    by_cases hcap : MAX_QUEUE_SIZE ≤ st.evaluationQueue.length
    · have heq : (AsyncModel.stepEnqueue q r c st).2 =
          { st with droppedCount := st.droppedCount + 1 } := by
        simp [AsyncModel.stepEnqueue, hcap]
      rw [heq]
      exact h
    · by_cases hp : st.isProcessing
      · have heq : (AsyncModel.stepEnqueue q r c st).2 =
            { st with evaluationQueue := st.evaluationQueue ++
                [{ query := q, response := r, context := c, retryCount := 0 }] } := by
          simp [AsyncModel.stepEnqueue, hcap, hp]
        rw [heq]
        show (st.evaluationQueue ++
            [({ query := q, response := r, context := c,
                retryCount := 0 } : QueueItem)]).length ≤ MAX_QUEUE_SIZE
        simp only [List.length_append, List.length_cons, List.length_nil]
        omega
      · rcases hq : st.evaluationQueue ++
            [{ query := q, response := r, context := c, retryCount := 0 }] with _ | ⟨head, rest⟩
        · simp at hq
        · have hlen := congrArg List.length hq
          simp only [List.length_append, List.length_cons, List.length_nil] at hlen
          have heq : (AsyncModel.stepEnqueue q r c st).2 =
              { st with evaluationQueue := rest, isProcessing := true,
                        inFlight := some head } := by
            simp [AsyncModel.stepEnqueue, hcap, hp, hq]
          rw [heq]
          show rest.length ≤ MAX_QUEUE_SIZE
          omega
  · intro hin hrc
    simp [AsyncModel.stepFinish, hin, hrc]
  · intro hinv ev
    cases ev with
    | enq q2 r2 c2 =>
      by_cases hcap : MAX_QUEUE_SIZE ≤ st.evaluationQueue.length
      · have heq : AsyncModel.stepA (.enq q2 r2 c2) st =
            { st with droppedCount := st.droppedCount + 1 } := by
          simp [AsyncModel.stepA, AsyncModel.stepEnqueue, hcap]
        rw [heq]
        rcases hin : st.inFlight with _ | it <;>
          simpa [AsyncModel.schedInvB, hin] using hinv
      · by_cases hp : st.isProcessing
        · have heq : AsyncModel.stepA (.enq q2 r2 c2) st =
              { st with evaluationQueue := st.evaluationQueue ++
                  [{ query := q2, response := r2, context := c2, retryCount := 0 }] } := by
            simp [AsyncModel.stepA, AsyncModel.stepEnqueue, hcap, hp]
          rw [heq]
          rcases hin : st.inFlight with _ | it <;>
            simp only [AsyncModel.schedInvB, hin, List.length_append,
              List.length_cons, List.length_nil, decide_eq_true_eq] <;>
            omega
        · rcases hq : st.evaluationQueue ++
              [{ query := q2, response := r2, context := c2, retryCount := 0 }] with _ | ⟨head, rest⟩
          · simp at hq
          · have hlen := congrArg List.length hq
            simp only [List.length_append, List.length_cons, List.length_nil] at hlen
            have heq : AsyncModel.stepA (.enq q2 r2 c2) st =
                { st with evaluationQueue := rest, isProcessing := true,
                          inFlight := some head } := by
              simp [AsyncModel.stepA, AsyncModel.stepEnqueue, hcap, hp, hq]
            rw [heq]
            simp only [AsyncModel.schedInvB, decide_eq_true_eq]
            omega
    | finish o =>
      rcases hin : st.inFlight with _ | it
      · have heq : AsyncModel.stepA (.finish o) st = st := by
          simp [AsyncModel.stepA, AsyncModel.stepFinish, hin]
        rw [heq]
        exact hinv
      · simp only [AsyncModel.schedInvB, hin, decide_eq_true_eq] at hinv
        rcases o with oe | ⟨⟩
        case ok =>
          have heq : AsyncModel.stepA (.finish (.ok ())) st =
              { st with inFlight := none, persisted := st.persisted ++ [it] } := by
            simp [AsyncModel.stepA, AsyncModel.stepFinish, hin]
          rw [heq]
          simp only [AsyncModel.schedInvB, decide_eq_true_eq]
          omega
        by_cases hrc : it.retryCount < MAX_RETRIES
        · have heq : AsyncModel.stepA (.finish (.error oe)) st =
              { st with inFlight := none, evaluationQueue := st.evaluationQueue ++
                  [{ it with retryCount := it.retryCount + 1, lastError := some oe }] } := by
            simp [AsyncModel.stepA, AsyncModel.stepFinish, hin, hrc]
          rw [heq]
          simp only [AsyncModel.schedInvB, List.length_append, List.length_cons,
            List.length_nil, decide_eq_true_eq]
          omega
        · have heq : AsyncModel.stepA (.finish (.error oe)) st =
              { st with inFlight := none } := by
            simp [AsyncModel.stepA, AsyncModel.stepFinish, hin, hrc]
          rw [heq]
          simp only [AsyncModel.schedInvB, decide_eq_true_eq]
          omega
    | resume =>
      by_cases hg : st.isProcessing && st.inFlight.isNone
      · have hin : st.inFlight = none :=
          Option.isNone_iff_eq_none.mp (Bool.and_elim_right hg)
        simp only [AsyncModel.schedInvB, hin, decide_eq_true_eq] at hinv
        rcases hq : st.evaluationQueue with _ | ⟨head, rest⟩
        · have heq : AsyncModel.stepA .resume st = { st with isProcessing := false } := by
            simp [AsyncModel.stepA, AsyncModel.stepResume, hg, hq]
          rw [heq]
          simp only [AsyncModel.schedInvB, hin, hq, decide_eq_true_eq,
            List.length_nil]
          omega
        · have hlen := congrArg List.length hq
          simp only [List.length_cons] at hlen
          have heq : AsyncModel.stepA .resume st =
              { st with evaluationQueue := rest, inFlight := some head } := by
            simp [AsyncModel.stepA, AsyncModel.stepResume, hg, hq]
          rw [heq]
          simp only [AsyncModel.schedInvB, decide_eq_true_eq]
          omega
      · have heq : AsyncModel.stepA .resume st = st := by
          simp [AsyncModel.stepA, AsyncModel.stepResume, hg]
        rw [heq]
        exact hinv

/-- C2 amended witness: the guarded clauses of `queueEvaluation_bound_amended`
at concrete states — a full busy queue, an empty busy consumer, the empty
idle scheduler, and an in-flight fresh item whose failure requeues. -/
theorem queueEvaluation_bound_amended_witness :
    (MAX_QUEUE_SIZE ≤ aFull.evaluationQueue.length ∧
      AsyncModel.stepEnqueue "q" "r" "c" aFull =
        (false, { aFull with droppedCount := aFull.droppedCount + 1 })) ∧
    (aBusy.evaluationQueue.length < MAX_QUEUE_SIZE ∧ aBusy.isProcessing = true ∧
      AsyncModel.stepEnqueue "q" "r" "c" aBusy =
        (true, { aBusy with evaluationQueue := aBusy.evaluationQueue ++
            [{ query := "q", response := "r", context := "c", retryCount := 0 }] })) ∧
    (AsyncModel.aInit.evaluationQueue.length < MAX_QUEUE_SIZE ∧
      AsyncModel.aInit.isProcessing = false ∧
      ∃ head rest, AsyncModel.aInit.evaluationQueue ++
          [{ query := "q", response := "r", context := "c", retryCount := 0 }] =
            head :: rest ∧
        AsyncModel.stepEnqueue "q" "r" "c" AsyncModel.aInit =
          (true, { AsyncModel.aInit with evaluationQueue := rest,
                                         isProcessing := true,
                                         inFlight := some head })) ∧
    (aFull.evaluationQueue.length ≤ MAX_QUEUE_SIZE ∧
      (AsyncModel.stepEnqueue "q" "r" "c" aFull).2.evaluationQueue.length ≤ MAX_QUEUE_SIZE) ∧
    (aBusy.inFlight = some qitemA ∧ qitemA.retryCount < MAX_RETRIES ∧
      (AsyncModel.stepFinish (.error "boom") aBusy).evaluationQueue.length =
        aBusy.evaluationQueue.length + 1) ∧
    (AsyncModel.schedInvB AsyncModel.aInit = true ∧
      AsyncModel.schedInvB
        (AsyncModel.stepA (AsyncModel.AEvent.enq "q" "r" "c") AsyncModel.aInit) = true) :=
  ⟨⟨by decide, (queueEvaluation_bound_amended aFull "q" "r" "c" qitemA "boom").1 (by decide)⟩,
   ⟨by decide, rfl,
    (queueEvaluation_bound_amended aBusy "q" "r" "c" qitemA "boom").2.1 (by decide) rfl⟩,
   ⟨by decide, rfl,
    (queueEvaluation_bound_amended AsyncModel.aInit "q" "r" "c" qitemA "boom").2.2.1
      (by decide) rfl⟩,
   ⟨by decide,
    (queueEvaluation_bound_amended aFull "q" "r" "c" qitemA "boom").2.2.2.1 (by decide)⟩,
   ⟨rfl, by decide,
    (queueEvaluation_bound_amended aBusy "q" "r" "c" qitemA "boom").2.2.2.2.1 rfl (by decide)⟩,
   ⟨by decide,
    (queueEvaluation_bound_amended AsyncModel.aInit "q" "r" "c" qitemA "boom").2.2.2.2.2.1
      (by decide) (AsyncModel.AEvent.enq "q" "r" "c")⟩⟩

/-- C1: a failed scoring-and-persist attempt on an item with
`retryCount < MAX_RETRIES = 3` bumps `retryCount`, records the failure
reason in `lastError` and appends the item to the tail of the queue; once
the ceiling is exceeded the item is dropped. Consequently, an item whose
judge call fails twice and then succeeds is persisted exactly once with
`retryCount = 2`, and an item whose judge call fails on every attempt yields
no persisted result and the queue returns to empty. -/
theorem processQueue_retry_spec (st : SchedState) (item : QueueItem)
    (rest : List QueueItem) (e : String) :
    (item.retryCount < MAX_RETRIES →
      processStep (.error e) { st with evaluationQueue := item :: rest } =
        { st with evaluationQueue := rest ++
            [{ item with retryCount := item.retryCount + 1, lastError := some e }] }) ∧
    (MAX_RETRIES ≤ item.retryCount →
      processStep (.error e) { st with evaluationQueue := item :: rest } =
        { st with evaluationQueue := rest }) ∧
    (let stQ := (queueEvaluation "q" "r" "c" schedEmpty).2
     let stA := processQueue [.error "boom", .error "boom", .ok ()] stQ
     stA.persisted = [{ query := "q", response := "r", context := "c",
                        retryCount := 2, lastError := some "boom" }] ∧
     stA.evaluationQueue = [] ∧ stA.isProcessing = false) ∧
    (let stQ := (queueEvaluation "q" "r" "c" schedEmpty).2
     let stB := processQueue [.error "boom", .error "boom", .error "boom",
                              .error "boom"] stQ
     stB.persisted = [] ∧ stB.evaluationQueue = [] ∧ stB.isProcessing = false) := by
  refine ⟨?_, ?_, ⟨by decide, by decide, by decide⟩, ⟨by decide, by decide, by decide⟩⟩
  · intro h
    simp [processStep, h]
  · intro h
    simp [processStep, Nat.not_lt.mpr h]

/-- C1 witness: the two guarded clauses of `processQueue_retry_spec` at a
fresh item (`retryCount = 0`) and at an exhausted item (`retryCount = 3`). -/
theorem processQueue_retry_spec_witness :
    (qitemA.retryCount < MAX_RETRIES ∧
      processStep (.error "err") { schedEmpty with evaluationQueue := [qitemA] } =
        { schedEmpty with evaluationQueue := [] ++
            [{ qitemA with retryCount := qitemA.retryCount + 1, lastError := some "err" }] }) ∧
    (MAX_RETRIES ≤ qitemExhausted.retryCount ∧
      processStep (.error "err") { schedEmpty with evaluationQueue := [qitemExhausted] } =
        { schedEmpty with evaluationQueue := [] }) :=
  ⟨⟨by decide, (processQueue_retry_spec schedEmpty qitemA [] "err").1 (by decide)⟩,
   ⟨by decide, (processQueue_retry_spec schedEmpty qitemExhausted [] "err").2.1 (by decide)⟩⟩

/-- C4 counterexample: the reply text consisting of the brace block `{a}`
contains no well-formed structured block, yet `judgeResponse` does not
return the neutral default vector — the `JSON.parse` exception escapes (and
would drive a retry). -/
theorem judgeResponse_throws_on_bad_block :
    isErr (judgeResponse (Except.ok "\x7ba\x7d")) = true ∧
    judgeResponse (Except.ok "\x7ba\x7d") ≠
      Except.ok (getDefaultScores "Invalid JSON response") := by
  refine ⟨rfl, fun heq => ?_⟩
  rw [show judgeResponse (Except.ok "\x7ba\x7d") =
        Except.error "Expected property name in JSON object" from rfl] at heq
  exact Except.noConfusion heq

/-- C4 amended: `judgeResponse` fails when the external scoring call fails
(propagating the error to drive a retry) and also when the reply contains a
brace-delimited block that fails JSON parsing; only when the reply contains
no brace-delimited block at all does it recover with the neutral default
vector (all scores 3, rationale "Invalid JSON response"). -/
theorem judgeResponse_default_spec (text : String) (e : String) :
    (extractJsonBlock text = none →
      judgeResponse (Except.ok text) =
        Except.ok (getDefaultScores "Invalid JSON response")) ∧
    judgeResponse (Except.error e) = Except.error e := by
  refine ⟨?_, rfl⟩
  intro h
  simp [judgeResponse, parseJudgeText, h]

/-- C4 witness: a reply with no brace block recovers with the neutral
defaults. -/
theorem judgeResponse_default_spec_witness :
    extractJsonBlock "no structured block here" = none ∧
    judgeResponse (Except.ok "no structured block here") =
      Except.ok (getDefaultScores "Invalid JSON response") :=
  ⟨by decide, (judgeResponse_default_spec "no structured block here" "x").1 (by decide)⟩

/-- C3 (code bug): for the well-formed judge reply
`{"reasoning": "ok"}` — valid JSON with the four score fields missing —
every persisted score component is NaN (`Math.round(undefined)` is NaN and
the min/max clamp passes NaN through), not an integer in `[1,5]` as the
claim requires; the rounding-and-clamping behaviour the claim describes does
hold for numeric raw values (7.6 becomes 5, 0 becomes 1). -/
theorem validateScore_nan_gap :
    ((parseJudgeText "\x7b\"reasoning\": \"ok\"\x7d").toOption.map
        (fun s => s.faithfulness) = some JsNum.nan) ∧
    ((parseJudgeText "\x7b\"reasoning\": \"ok\"\x7d").toOption.map
        (fun s => s.relevance) = some JsNum.nan) ∧
    ((parseJudgeText "\x7b\"reasoning\": \"ok\"\x7d").toOption.map
        (fun s => s.completeness) = some JsNum.nan) ∧
    ((parseJudgeText "\x7b\"reasoning\": \"ok\"\x7d").toOption.map
        (fun s => s.citationAccuracy) = some JsNum.nan) ∧
    scoreInRangeB JsNum.nan = false ∧
    validateScore JsVal.jsUndefined = JsNum.nan ∧
    validateScore (JsVal.num (mkRat 38 5)) = JsNum.val 5 ∧
    validateScore (JsVal.num 0) = JsNum.val 1 := by
  refine ⟨by decide, by decide, by decide, by decide, by decide, by decide, ?_, ?_⟩
  · decide
  · decide

/-- Reading the config leaves the evaluation-log file untouched. -/
theorem getConfig_snd_diskEvals (st : StoreState) :
    (getConfig st).2.diskEvals = st.diskEvals := by
  rcases st with ⟨dc, cc, de, ec⟩
  cases cc <;> cases dc <;> rfl

/-- C6: `saveEvaluation` re-reads the durable log fresh, prepends the new
result, trims to the first `maxStored` entries, writes the trimmed log
durably and mirrors it into the cache; hence (for the positive `maxStored`
of any well-formed config) the stored log has at most `maxStored` entries,
has the new result at index 0, and is a prefix of "new result, then the old
log newest-first" — i.e. the evicted entries are exactly the oldest ones. -/
theorem saveEvaluation_spec (st : StoreState) (res : EvaluationResult)
    (hms : 1 ≤ (getConfig st).1.maxStored) :
    ∃ log : List EvaluationResult,
      (saveEvaluation res st).diskEvals = some log ∧
      (saveEvaluation res st).evaluationsCache = some log ∧
      (log.length : ℤ) ≤ (getConfig st).1.maxStored ∧
      log.head? = some res ∧
      ∃ k : ℕ, log = (res :: readEvaluationsFromDisk st).take k := by
  have hread : readEvaluationsFromDisk (getConfig st).2 = readEvaluationsFromDisk st := by
    simp [readEvaluationsFromDisk, getConfig_snd_diskEvals]
  simp only [saveEvaluation, hread]
  set m := (getConfig st).1.maxStored with hm
  set old := readEvaluationsFromDisk st with hold
  by_cases hlen : ((res :: old).length : ℤ) > m
  · simp only [hlen, if_pos, if_true]
    have hm0 : ¬ m < 0 := by omega
    refine ⟨(res :: old).take m.toNat, ?_, ?_, ?_, ?_, ⟨m.toNat, rfl⟩⟩
    · simp [jsSliceTo, hm0]
    · simp [jsSliceTo, hm0]
    · simp only [List.length_take]
      omega
    · obtain ⟨n, hn⟩ : ∃ n, m.toNat = n + 1 := ⟨m.toNat - 1, by omega⟩
      rw [hn, List.take_succ_cons]
      rfl
  · simp only [hlen, if_neg, if_false]
    exact ⟨res :: old, rfl, rfl, by omega, rfl,
      ⟨(res :: old).length, (List.take_length _).symm⟩⟩

/-- C6 witness: saving a result into the empty store (default config,
`maxStored = 1000`). -/
theorem saveEvaluation_spec_witness :
    (1 ≤ (getConfig storeEmpty).1.maxStored) ∧
    (∃ log : List EvaluationResult,
      (saveEvaluation resA storeEmpty).diskEvals = some log ∧
      (saveEvaluation resA storeEmpty).evaluationsCache = some log ∧
      (log.length : ℤ) ≤ (getConfig storeEmpty).1.maxStored ∧
      log.head? = some resA ∧
      ∃ k : ℕ, log = (resA :: readEvaluationsFromDisk storeEmpty).take k) :=
  ⟨by decide, saveEvaluation_spec storeEmpty resA (by decide)⟩

/-- C9 counterexample: the copy made by `getEvaluations` is shallow. From a
store whose cache holds one unflagged result, a caller who receives the
returned array and performs the element mutation `returned[0].isFlagged =
true` changes the store: a subsequent `getEvaluations` (and the cache
itself) now shows the record flagged, contradicting the claim that no
mutation through the returned value can be observed. -/
theorem getEvaluations_shared_elements_counterexample :
    ((AliasModel.viewArr (AliasModel.getEvaluations aliasSt0).2.heap
        (AliasModel.getEvaluations aliasSt0).1).map (Option.map EvaluationResult.isFlagged)
      = [some false]) ∧
    ((AliasModel.viewArr
        (AliasModel.getEvaluations
          (AliasModel.setElemField (AliasModel.getEvaluations aliasSt0).2
            (AliasModel.getEvaluations aliasSt0).1 0
            (fun r0 => { r0 with isFlagged := true }))).2.heap
        (AliasModel.getEvaluations
          (AliasModel.setElemField (AliasModel.getEvaluations aliasSt0).2
            (AliasModel.getEvaluations aliasSt0).1 0
            (fun r0 => { r0 with isFlagged := true }))).1).map
      (Option.map EvaluationResult.isFlagged) = [some true]) ∧
    ((AliasModel.viewArr
        (AliasModel.setElemField (AliasModel.getEvaluations aliasSt0).2
          (AliasModel.getEvaluations aliasSt0).1 0
          (fun r0 => { r0 with isFlagged := true })).heap 0).map
      (Option.map EvaluationResult.isFlagged) = [some true]) := by
  refine ⟨?_, ?_, ?_⟩ <;> rfl

/-- C9 amended: `getEvaluations` returns a fresh array (distinct from the
cached array reference), so mutations of the returned sequence itself —
overwriting its slots — never change the cached array's contents; the
element objects, however, are shared by reference (see the counterexample),
so only sequence-level mutations are isolated. -/
theorem getEvaluations_array_copy (st : AliasModel.MemState) (c : ℕ)
    (hc : st.evaluationsCache = some c) (hlt : c < st.heap.arrs.length) :
    ((AliasModel.getEvaluations st).1 ≠ c) ∧
    (AliasModel.arrElems (AliasModel.getEvaluations st).2.heap c =
      AliasModel.arrElems st.heap c) ∧
    (∀ i o : ℕ, AliasModel.arrElems
        (AliasModel.setArrSlot (AliasModel.getEvaluations st).2
          (AliasModel.getEvaluations st).1 i o).heap c =
      AliasModel.arrElems st.heap c) := by
  refine ⟨?_, ?_, ?_⟩
  · simp only [AliasModel.getEvaluations, hc, AliasModel.allocArr]
    omega
  · simp only [AliasModel.getEvaluations, hc, AliasModel.allocArr,
      AliasModel.arrElems]
    rw [List.get?_append hlt]
  · intro i o
    simp only [AliasModel.getEvaluations, hc, AliasModel.allocArr,
      AliasModel.setArrSlot, AliasModel.arrElems]
    rw [List.get?_set_ne _ _ (by omega), List.get?_append hlt]

/-- C9 amended witness: the sequence-level isolation at the concrete
one-record store. -/
theorem getEvaluations_array_copy_witness :
    (aliasSt0.evaluationsCache = some 0 ∧ 0 < aliasSt0.heap.arrs.length) ∧
    ((AliasModel.getEvaluations aliasSt0).1 ≠ 0) ∧
    (AliasModel.arrElems (AliasModel.getEvaluations aliasSt0).2.heap 0 =
      AliasModel.arrElems aliasSt0.heap 0) ∧
    (AliasModel.arrElems
        (AliasModel.setArrSlot (AliasModel.getEvaluations aliasSt0).2
          (AliasModel.getEvaluations aliasSt0).1 0 0).heap 0 =
      AliasModel.arrElems aliasSt0.heap 0) :=
  ⟨⟨rfl, by decide⟩,
   (getEvaluations_array_copy aliasSt0 0 rfl (by decide)).1,
   (getEvaluations_array_copy aliasSt0 0 rfl (by decide)).2.1,
   (getEvaluations_array_copy aliasSt0 0 rfl (by decide)).2.2 0 0⟩

end ContractEval



